import Mathlib

/-!
Shallow embedding of the metrics-computation core of the
`bert-text-complexity` repository (src/core/analyze/*.py), together with
theorems settling the frozen claims about it.

Modelling conventions:
* Rational numbers stand in for Python floats (the claims proved here are
  about exact branch structure, clamping and counting, none of which is
  sensitive to binary floating point rounding of the inputs).
* Python `round(x, d)` (banker's rounding) is modelled by `pyRound`.
* `re`-based tokenization is modelled by explicit scanners over `List Char`,
  reproducing the word-boundary (`\b`) and backtracking behaviour of the
  source regexes for the character classes involved.  The Python `\w` class
  is modelled for the scripts in scope (ASCII letters, digits, underscore,
  and the Cyrillic block U+0400..U+04FF); `str.lower` is modelled on the
  same alphabet; `str.strip` / `\s` use the ASCII whitespace set.
* The external morphological collaborator (`pymorphy2.MorphAnalyzer`) is a
  parameter: a function `String → Except Unit (List Candidate)`, where
  `.error` models a raised exception and the candidate list models the
  ranked parses.  `Candidate` carries exactly the attributes the source
  reads: `tag.POS`, `normal_form`, `tag.aspect`.
-/

/-! ## Character model -/

/-- Lower-casing as `str.lower`, for ASCII letters and the basic Cyrillic
block (`А-Я` → `а-я`, `Ё` → `ё`, `Ѐ..Џ` → `ѐ..џ`); other characters are
unchanged. -/
def pyLower (c : Char) : Char :=
  let n := c.toNat
  if 65 ≤ n ∧ n ≤ 90 then Char.ofNat (n + 32)
  else if 0x410 ≤ n ∧ n ≤ 0x42F then Char.ofNat (n + 32)
  else if n = 0x401 ∨ (0x400 ≤ n ∧ n ≤ 0x40F) then Char.ofNat (n + 80)
  else c

/-- The character class `[а-яё]` of the Cyrillic-only word regexes. -/
def isCyrLower (c : Char) : Bool :=
  (0x430 ≤ c.toNat && c.toNat ≤ 0x44F) || c.toNat == 0x451

/-- The character class `[а-яА-ЯёЁa-zA-Z]` of the mixed-script word regex. -/
def isMixedLetter (c : Char) : Bool :=
  (65 ≤ c.toNat && c.toNat ≤ 90) || (97 ≤ c.toNat && c.toNat ≤ 122) ||
  (0x410 ≤ c.toNat && c.toNat ≤ 0x44F) || c.toNat == 0x401 || c.toNat == 0x451

/-- Python's `\w` (word character), restricted to the scripts in scope:
ASCII letters, digits, underscore, and the Cyrillic block. -/
def isWordChar (c : Char) : Bool :=
  (65 ≤ c.toNat && c.toNat ≤ 90) || (97 ≤ c.toNat && c.toNat ≤ 122) ||
  (48 ≤ c.toNat && c.toNat ≤ 57) || c == '_' ||
  (0x400 ≤ c.toNat && c.toNat ≤ 0x4FF)

/-- Python's `\s` / `str.strip` whitespace (ASCII part). -/
def isPySpace (c : Char) : Bool :=
  c == ' ' || c == '\t' || c == '\n' || c == '\r' || c.toNat == 11 || c.toNat == 12

/-- Sentence terminators of the `[.!?]+` split. -/
def isSentTerm (c : Char) : Bool := c == '.' || c == '!' || c == '?'

/-- Vowels of the Russian syllable heuristic (`аеёиоуыэюя`). -/
def isVowel (c : Char) : Bool :=
  c == 'а' || c == 'е' || c == 'ё' || c == 'и' || c == 'о' ||
  c == 'у' || c == 'ы' || c == 'э' || c == 'ю' || c == 'я'

/-- `str.strip`: drop whitespace from both ends. -/
def stripChars (l : List Char) : List Char :=
  ((l.dropWhile isPySpace).reverse.dropWhile isPySpace).reverse

/-! ## Segmenter (`_split_sentences`) -/

/-- Split on single sentence terminators (`re.split(r'[.!?]+', ...)` up to the
empty pieces that the caller filters out anyway). -/
def splitTerm : List Char → List (List Char)
  | [] => [[]]
  | c :: cs =>
    match splitTerm cs with
    | [] => [[]]
    | r :: rs => if isSentTerm c then [] :: r :: rs else (c :: r) :: rs

/-- `_split_sentences`: split on `[.!?]+`, strip each piece, drop empties. -/
def split_sentences (l : List Char) : List (List Char) :=
  ((splitTerm l).map stripChars).filter (fun s => !s.isEmpty)

/-! ## Word scanners (`re.findall` word regexes)

`scanTokens cls hyph` models `re.findall` with pattern
`\b[cls]+\b` (when `hyph = false`) or `\b[cls]+(?:-[cls]+)*\b`
(when `hyph = true`): a match must start at the beginning of a maximal
word-character run, the run's matched part must consist of class characters
only, the match must end at a word boundary, and on a failed trailing
hyphen-group the group is dropped (regex backtracking) with scanning
resuming at the match end.  Fuel (initialised to more than the list length,
an upper bound on the number of scanning steps) makes the recursion
structural. -/

def scanExtendF (cls : Char → Bool) : ℕ → List Char → List Char
  | 0, _ => []
  | _ + 1, [] => []
  | fuel + 1, c :: t =>
    if c = '-' then
      let r := t.takeWhile isWordChar
      if r ≠ [] ∧ r.all cls = true then
        ('-' :: r) ++ scanExtendF cls fuel (t.dropWhile isWordChar)
      else []
    else []

def scanTokensF (cls : Char → Bool) (hyph : Bool) : ℕ → List Char → List (List Char)
  | 0, _ => []
  | _ + 1, [] => []
  | fuel + 1, c :: cs =>
    if isWordChar c = true then
      let r := (c :: cs).takeWhile isWordChar
      let rest := (c :: cs).dropWhile isWordChar
      if r.all cls = true then
        if hyph then
          let ext := scanExtendF cls rest.length rest
          (r ++ ext) :: scanTokensF cls hyph fuel (rest.drop ext.length)
        else r :: scanTokensF cls hyph fuel rest
      else scanTokensF cls hyph fuel rest
    else scanTokensF cls hyph fuel cs

def scanTokens (cls : Char → Bool) (hyph : Bool) (l : List Char) : List (List Char) :=
  scanTokensF cls hyph (l.length + 1) l

/-! ## Syllable heuristic (`_count_syllables_ru`) -/

/-- `max(1, number of vowels of word.lower())`. -/
def count_syllables_ru (w : List Char) : ℕ :=
  max 1 ((w.map pyLower).countP isVowel)

/-! ## Python `round` (banker's rounding) -/

/-- Round-half-to-even to an integer. -/
def pyRoundInt (q : ℚ) : ℤ :=
  let n := ⌊q⌋
  let f := q - (n : ℚ)
  if f < 1/2 then n
  else if 1/2 < f then n + 1
  else if n % 2 = 0 then n else n + 1

/-- Python `round(q, d)`. -/
def pyRound (d : ℕ) (q : ℚ) : ℚ :=
  (pyRoundInt (q * (10 : ℚ) ^ d) : ℚ) / (10 : ℚ) ^ d

/-! ## `TextComplexityMetrics` (src/core/analyze/textComplexityMetrics.py)

The result is modelled as the Python dict: a list of key/value pairs in
insertion order, with all numeric values as rationals. -/

/-- Look a key up in a result mapping. -/
def getVal (r : List (String × ℚ)) (k : String) : Option ℚ :=
  (r.find? (fun p => p.1 == k)).map (fun p => p.2)

namespace TCM

/-- `_split_words`: mixed-script hyphenated words, case preserved. -/
def split_words (sentence : List Char) : List (List Char) :=
  scanTokens isMixedLetter true sentence

/-- The `words` accumulation loop of `compute`: words of every sentence,
concatenated. -/
def wordsOf (l : List Char) : List (List Char) :=
  ((split_sentences l).map split_words).flatten

def compute (text : String) : List (String × ℚ) :=
  let l := text.toList
  if stripChars l = [] then
    [("avg_sentence_length", 0), ("avg_word_syllables", 0), ("avg_word_letters", 0),
     ("sentence_count", 0), ("word_count", 0),
     ("char_count", (l.length : ℚ)), ("confidence_hint", 0)]
  else
    let sentences := split_sentences l
    let words := wordsOf l
    let avg_sent_len : ℚ :=
      if sentences.isEmpty then 0 else (words.length : ℚ) / (sentences.length : ℚ)
    let syllables := words.map count_syllables_ru
    let avg_syllables : ℚ :=
      if syllables.isEmpty then 0 else (syllables.sum : ℚ) / (syllables.length : ℚ)
    let letters := words.map List.length
    let avg_letters : ℚ :=
      if letters.isEmpty then 0 else (letters.sum : ℚ) / (letters.length : ℚ)
    let confidence0 : ℚ := 1
    let confidence1 : ℚ := if sentences.length < 2 then 1/2 else confidence0
    let confidence2 : ℚ := if words.length < 5 then 3/10 else confidence1
    [("Средняя длина предложения (avg_sentence_length)", pyRound 2 avg_sent_len),
     ("Средняя длина слова (в слогах) (avg_word_syllables)", pyRound 2 avg_syllables),
     ("Средняя длина слова (в буквах) (аvg_word_letters)", pyRound 2 avg_letters),
     ("sentence_count", (sentences.length : ℚ)),
     ("word_count", (words.length : ℚ)),
     ("char_count", (l.length : ℚ)),
     ("confidence_hint", pyRound 2 confidence2)]

end TCM

/-! ## The duplicate `TextComplexityMetrics`
(src/core/analyze/ReadabilityIndexCalculator.py, lines 8-87) -/

namespace TCMDup

/-- `_split_words` of the duplicate class. -/
def split_words (sentence : List Char) : List (List Char) :=
  scanTokens isMixedLetter true sentence

/-- The `words` accumulation loop of the duplicate `compute`. -/
def wordsOf (l : List Char) : List (List Char) :=
  ((split_sentences l).map split_words).flatten

def compute (text : String) : List (String × ℚ) :=
  let l := text.toList
  if stripChars l = [] then
    [("avg_sentence_length", 0), ("avg_word_syllables", 0), ("avg_word_letters", 0),
     ("sentence_count", 0), ("word_count", 0),
     ("char_count", (l.length : ℚ)), ("confidence_hint", 0)]
  else
    let sentences := split_sentences l
    let words := wordsOf l
    let avg_sent_len : ℚ :=
      if sentences.isEmpty then 0 else (words.length : ℚ) / (sentences.length : ℚ)
    let syllables := words.map count_syllables_ru
    let avg_syllables : ℚ :=
      if syllables.isEmpty then 0 else (syllables.sum : ℚ) / (syllables.length : ℚ)
    let letters := words.map List.length
    let avg_letters : ℚ :=
      if letters.isEmpty then 0 else (letters.sum : ℚ) / (letters.length : ℚ)
    let confidence0 : ℚ := 1
    let confidence1 : ℚ := if sentences.length < 2 then 1/2 else confidence0
    let confidence2 : ℚ := if words.length < 5 then 3/10 else confidence1
    [("Средняя длина предложения (avg_sentence_length)", pyRound 2 avg_sent_len),
     ("Средняя длина слова (в слогах) (avg_word_syllables)", pyRound 2 avg_syllables),
     ("Средняя длина слова (в буквах) (аvg_word_letters)", pyRound 2 avg_letters),
     ("sentence_count", (sentences.length : ℚ)),
     ("word_count", (words.length : ℚ)),
     ("char_count", (l.length : ℚ)),
     ("confidence_hint", pyRound 2 confidence2)]

end TCMDup

/-- The sequential confidence computation of `TextComplexityMetrics.compute`:
start at 1.0, set 0.5 when fewer than 2 sentences, then (unconditionally
evaluated second check) set 0.3 when fewer than 5 words. -/
def confSeq (nSentences nWords : ℕ) : ℚ :=
  let confidence0 : ℚ := 1
  let confidence1 : ℚ := if nSentences < 2 then 1/2 else confidence0
  if nWords < 5 then 3/10 else confidence1

/-! ## `DescriptiveTextMetrics` (src/core/analyze/descriptiveTextMetrics.py) -/

/-- One step of the distribution-building loop
`distribution[sc] = distribution.get(sc, 0) + 1` on a Python dict,
modelled as an insertion-ordered association list with unique keys. -/
def bump : List (ℕ × ℕ) → ℕ → List (ℕ × ℕ)
  | [], k => [(k, 1)]
  | p :: ps, k => if p.1 = k then (p.1, p.2 + 1) :: ps else p :: bump ps k

/-- `dict.get(k, 0)`. -/
def dget (d : List (ℕ × ℕ)) (k : ℕ) : ℕ :=
  ((d.find? (fun p => p.1 == k)).map (fun p => p.2)).getD 0

namespace DTM

/-- `_extract_words`: lower-cased Cyrillic words with inner hyphens. -/
def extract_words (l : List Char) : List (List Char) :=
  scanTokens isCyrLower true (l.map pyLower)

structure Result where
  word_forms_total : ℕ
  unique_words : ℕ
  sentence_count : ℕ
  monosyllabic_words : ℕ
  disyllabic_words : ℕ
  trisyllabic_words : ℕ
  polysyllabic_words : ℕ
  word_syllable_distribution : List (ℕ × ℕ)
  lexical_diversity : ℚ
deriving DecidableEq

def compute (text : String) : Result :=
  let l := text.toList
  if stripChars l = [] then
    { word_forms_total := 0, unique_words := 0, sentence_count := 0,
      monosyllabic_words := 0, disyllabic_words := 0, trisyllabic_words := 0,
      polysyllabic_words := 0, word_syllable_distribution := [],
      lexical_diversity := 0 }
  else
    let sentences := split_sentences l
    let all_words := extract_words l
    let unique_words := all_words.dedup
    let syllable_counts := all_words.map count_syllables_ru
    let distribution := syllable_counts.foldl bump []
    { word_forms_total := all_words.length
      unique_words := unique_words.length
      sentence_count := sentences.length
      monosyllabic_words := dget distribution 1
      disyllabic_words := dget distribution 2
      trisyllabic_words := dget distribution 3
      polysyllabic_words := ((distribution.filter (fun p => decide (4 ≤ p.1))).map (fun p => p.2)).sum
      word_syllable_distribution := distribution
      lexical_diversity :=
        if all_words.isEmpty then 0
        else pyRound 3 ((unique_words.length : ℚ) / (all_words.length : ℚ)) }

end DTM

/-! ## `ReadabilityIndexCalculator` (src/core/analyze/ReadabilityIndexCalculator.py)

The floating point operation `x ** 0.5` is the one non-rational operation of
the source; `compute` is parameterized by the square-root routine `sqrt`
(every claim proved below holds for an arbitrary `sqrt`). -/

namespace RIC

/-- `_extract_words`: same Cyrillic hyphenated extraction as the
descriptive analyzer. -/
def extract_words (l : List Char) : List (List Char) :=
  scanTokens isCyrLower true (l.map pyLower)

/-- The SMOG computation of `compute`: a discontinuous two-branch rule on
the sentence count. -/
def smogRu (sqrt : ℚ → ℚ) (n_sentences polysyllables : ℕ) : ℚ :=
  if 10 ≤ n_sentences then
    1.043 * sqrt (30 * (polysyllables : ℚ) / (n_sentences : ℚ)) + 3.1291
  else
    1 + 0.1 * (polysyllables : ℚ)

/-- `_interpret_flesch`: ordered threshold bands, first match wins. -/
def interpret_flesch (score : ℚ) : String :=
  if 90 ≤ score then "очень легко (1–3 кл.)"
  else if 80 ≤ score then "легко (4–5 кл.)"
  else if 70 ≤ score then "довольно легко (6–7 кл.)"
  else if 60 ≤ score then "средне (8–9 кл.)"
  else if 50 ≤ score then "довольно сложно (10–11 кл.)"
  else if 30 ≤ score then "сложно (студенты)"
  else "очень сложно (академики)"

structure Result where
  flesch_reading_ease : ℚ
  smog_grade : ℚ
  simple_level : ℚ
  school_grade : ℚ
  avg_sentence_words : ℚ
  avg_word_syllables : ℚ
  polysyllabic_words_ge3 : ℕ
  polysyllabic_words_ge4 : ℕ
  long_sentences_gt15 : ℕ
  long_words_ge7 : ℕ
  flesch_level : String
  is_child_friendly : Bool
  confidence_hint : ℚ
deriving DecidableEq

def empty_result : Result :=
  { flesch_reading_ease := 0, smog_grade := 0, simple_level := 0, school_grade := 0,
    avg_sentence_words := 0, avg_word_syllables := 0,
    polysyllabic_words_ge3 := 0, polysyllabic_words_ge4 := 0,
    long_sentences_gt15 := 0, long_words_ge7 := 0,
    flesch_level := "пусто", is_child_friendly := false, confidence_hint := 0 }

def compute (sqrt : ℚ → ℚ) (text : String) : Result :=
  let l := text.toList
  if stripChars l = [] then empty_result
  else
    let sentences := split_sentences l
    let words := extract_words l
    let n_sentences := sentences.length
    let n_words := words.length
    if n_words = 0 ∨ n_sentences = 0 then empty_result
    else
      let syllables := words.map count_syllables_ru
      let n_syllables := syllables.sum
      let polysyllables := (syllables.filter (fun s => decide (3 ≤ s))).length
      let asl : ℚ := (n_words : ℚ) / (n_sentences : ℚ)
      let asw : ℚ := (n_syllables : ℚ) / (n_words : ℚ)
      let flesch0 : ℚ := 206.835 - 1.3 * asw - 60.1 * ((n_sentences : ℚ) / (n_words : ℚ))
      let flesch : ℚ := max 0 (min 100 flesch0)
      let smog : ℚ := smogRu sqrt n_sentences polysyllables
      let long_sentences := (sentences.filter (fun s => decide (15 < (extract_words s).length))).length
      let long_words := (words.filter (fun w => decide (7 ≤ w.length))).length
      let polysyllables_4 := (syllables.filter (fun s => decide (4 ≤ s))).length
      let simple_score : ℚ := 0.5 * (long_sentences : ℚ) + 1.0 * (polysyllables_4 : ℚ)
                               + 0.2 * (long_words : ℚ)
      let simple_level : ℚ := min 5 (max 1 (1 + simple_score / 5))
      let school_level0 : ℚ := 0.39 * asl + 11.8 * asw - 15.59
      let school_level : ℚ := max 1 (min 12 school_level0)
      let flesch_level := interpret_flesch flesch
      let smog_grade := pyRound 1 smog
      { flesch_reading_ease := pyRound 1 flesch
        smog_grade := pyRound 1 smog_grade
        simple_level := pyRound 1 simple_level
        school_grade := pyRound 1 school_level
        avg_sentence_words := pyRound 2 asl
        avg_word_syllables := pyRound 2 asw
        polysyllabic_words_ge3 := polysyllables
        polysyllabic_words_ge4 := polysyllables_4
        long_sentences_gt15 := long_sentences
        long_words_ge7 := long_words
        flesch_level := flesch_level
        is_child_friendly := decide (70 ≤ flesch) && decide (simple_level ≤ 5/2)
        confidence_hint := if 20 ≤ n_words then 1 else 0.6 }

/-- The `polysyllables` intermediate (count of words of at least 3
syllables), for stating claims about `compute`. -/
def polyOf (l : List Char) : ℕ :=
  (((extract_words l).map count_syllables_ru).filter (fun s => decide (3 ≤ s))).length

end RIC

/-! ## `MorphoMetrics` (src/core/analyze/morpho_metrics.py) -/

namespace MorphoMetrics

/-- One ranked parse from the morphological collaborator: the attributes the
source reads are `tag.POS` (may be `None`), `normal_form`, and `tag.aspect`
(may be `None`). -/
structure Candidate where
  pos : Option String
  normal_form : String
  aspect : Option String
deriving DecidableEq

/-- The collaborator's `parse` call; `.error` models a raised exception. -/
abbrev Parse := String → Except Unit (List Candidate)

/-- The classification cache `self._cache`, as an insertion-ordered
association list (keys are unique: the source inserts only on a miss). -/
abbrev Cache := List (String × String)

/-- Association-list lookup (`word in self._cache` / `self._cache[word]`). -/
def clookup : Cache → String → Option String
  | [], _ => none
  | p :: ps, w => if p.1 = w then some p.2 else clookup ps w

/-- `parsed[0].tag.POS or "UNKNOWN"` (with `"UNKNOWN"` for an empty parse
list). -/
def tagOf : List Candidate → String
  | [] => "UNKNOWN"
  | c :: _ => c.pos.getD "UNKNOWN"

/-- `_extract_words`: `re.findall(r'\b[а-яё]+\b', text.lower())`. -/
def extract_words (text : String) : List String :=
  (scanTokens isCyrLower false (text.toList.map pyLower)).map (fun t => String.mk t)

/-- `_get_pos`: consult the cache; on a miss call the collaborator and admit
the entry only while capacity remains.  Returns the POS outcome (an
exception from `parse` propagates: there is no handler in the source) and
the cache after the call. -/
def get_pos (parse : Parse) (cache_size : ℕ) (cache : Cache) (word : String) :
    Except Unit String × Cache :=
  if word = "" then (.ok "UNKNOWN", cache)
  else
    match clookup cache word with
    | some pos => (.ok pos, cache)
    | none =>
      match parse word with
      | .error e => (.error e, cache)
      | .ok parsed =>
        let pos := tagOf parsed
        if cache.length < cache_size then (.ok pos, cache ++ [(word, pos)])
        else (.ok pos, cache)

/-- The list comprehension `[self._get_pos(w) for w in words]`, threading the
cache; an exception aborts the remaining lookups but keeps the cache
mutations made so far. -/
def mapPosList (parse : Parse) (cache_size : ℕ) :
    Cache → List String → Except Unit (List String) × Cache
  | cache, [] => (.ok [], cache)
  | cache, w :: ws =>
    match get_pos parse cache_size cache w with
    | (.error e, c) => (.error e, c)
    | (.ok p, c) =>
      match mapPosList parse cache_size c ws with
      | (.error e, c') => (.error e, c')
      | (.ok ps, c') => (.ok (p :: ps), c')

/-- `"perf" in tag.aspect`: substring membership when the aspect is a string,
a raised `TypeError` when it is `None`. -/
def aspectHasPerf : Option String → Except Unit Bool
  | none => .error ()
  | some a => .ok (decide ("perf".toList <:+: a.toList))

/-- The loop of `_compute_perfective_verb_ratio`, returning
`(perfective_count, verb_count)`. -/
def perfCounts (parse : Parse) : List String → Except Unit (ℕ × ℕ)
  | [] => .ok (0, 0)
  | w :: ws =>
    match parse w with
    | .error e => .error e
    | .ok parses =>
      match parses with
      | [] => perfCounts parse ws
      | c :: _ =>
        if c.pos = some "VERB" ∨ c.pos = some "INFN" then
          match aspectHasPerf c.aspect with
          | .error e => .error e
          | .ok isPerf =>
            match perfCounts parse ws with
            | .error e => .error e
            | .ok (p, v) => .ok ((if isPerf then p + 1 else p), v + 1)
        else perfCounts parse ws

/-- `_compute_perfective_verb_ratio`. -/
def perfective_verb_ratio (parse : Parse) (words : List String) : Except Unit ℚ :=
  match perfCounts parse words with
  | .error e => .error e
  | .ok (perfective_count, verb_count) =>
    .ok (if verb_count = 0 then 0
         else pyRound 3 ((perfective_count : ℚ) / (verb_count : ℚ)))

/-- The diminutive suffix tuple of `_count_diminutives`. -/
def dimSuffixes : List String :=
  ["очк", "еньк", "оньк", "еньк", "ушк", "ышк", "ичк", "ичк"]

/-- `norm.endswith(s)`. -/
def endsWithStr (w s : String) : Bool := decide (s.toList <:+ w.toList)

/-- `_count_diminutives`. -/
def count_diminutives (parse : Parse) : List String → Except Unit ℕ
  | [] => .ok 0
  | w :: ws =>
    match parse w with
    | .error e => .error e
    | .ok parses =>
      let norm := match parses with
        | [] => w
        | c :: _ => c.normal_form
      match count_diminutives parse ws with
      | .error e => .error e
      | .ok n => .ok ((if dimSuffixes.any (fun s => endsWithStr norm s) then 1 else 0) + n)

/-- The guillemet matcher `re.findall(r'«[^»]*»', text)`: number of
non-overlapping quoted spans (a span opens at `«` and runs to the next
`»`). -/
def countGuillemets : Bool → List Char → ℕ
  | _, [] => 0
  | false, c :: cs => countGuillemets (c = '«') cs
  | true, c :: cs => if c = '»' then 1 + countGuillemets false cs else countGuillemets true cs

/-- Split on newlines (for the `re.MULTILINE` line anchors). -/
def splitLines : List Char → List (List Char)
  | [] => [[]]
  | c :: cs =>
    match splitLines cs with
    | [] => [[]]
    | r :: rs => if c = '\n' then [] :: r :: rs else (c :: r) :: rs

/-- `re.findall(r'^\s*—', text, re.MULTILINE)`: count of lines whose first
non-whitespace character is an em dash. -/
def countDashLines (l : List Char) : ℕ :=
  ((splitLines l).filter (fun s =>
    match s.dropWhile isPySpace with
    | c :: _ => c = '—'
    | [] => false)).length

/-- `_count_dialogue_markers`. -/
def count_dialogue_markers (l : List Char) : ℕ :=
  countGuillemets false l + countDashLines l

/-- The lemma collection of the `unique_lemmas` set comprehension:
`{parse(w)[0].normal_form for w in words if parse(w)}` (an unparseable word
is excluded, not substituted). -/
def lemmaList (parse : Parse) : List String → Except Unit (List String)
  | [] => .ok []
  | w :: ws =>
    match parse w with
    | .error e => .error e
    | .ok parses =>
      match lemmaList parse ws with
      | .error e => .error e
      | .ok ls =>
        match parses with
        | [] => .ok ls
        | c :: _ => .ok (c.normal_form :: ls)

structure Result where
  nouns : ℕ
  verbs : ℕ
  adjectives : ℕ
  pronouns : ℕ
  adverbs : ℕ
  prepositions : ℕ
  conjunctions : ℕ
  particles : ℕ
  interjections : ℕ
  noun_ratio : ℚ
  verb_ratio : ℚ
  adj_ratio : ℚ
  verb_perfective_ratio : ℚ
  diminutive_noun_count : ℕ
  dialogue_markers : ℕ
  total_words : ℕ
  unique_lemmas : ℕ
deriving DecidableEq

/-- `_empty_result()` (every key 0). -/
def empty_result : Result :=
  { nouns := 0, verbs := 0, adjectives := 0, pronouns := 0, adverbs := 0,
    prepositions := 0, conjunctions := 0, particles := 0, interjections := 0,
    noun_ratio := 0, verb_ratio := 0, adj_ratio := 0, verb_perfective_ratio := 0,
    diminutive_noun_count := 0, dialogue_markers := 0, total_words := 0,
    unique_lemmas := 0 }

/-- The result construction of `compute` after `pos_list` is available.
The dict values are evaluated in source order, so of the fallible helpers
`_compute_perfective_verb_ratio` runs first, then `_count_diminutives`,
then the `unique_lemmas` comprehension; the first exception propagates.
The semantic aggregates `noun_like`, `verb_like`, `adj_like` are computed
by the source but not reported (only `pronouns` reports its aggregate);
they are reproduced here as unused bindings. -/
def computeCore (parse : Parse) (pos_list : List String) (words : List String)
    (l : List Char) : Except Unit Result :=
  let noun_like := pos_list.count "NOUN" + pos_list.count "NPRO"
  let verb_like := pos_list.count "VERB" + pos_list.count "INFN" + pos_list.count "GRND"
  let adj_like := pos_list.count "ADJF" + pos_list.count "PRTF" + pos_list.count "NUMR"
  let adv_like := pos_list.count "ADVB"
  let pronouns := pos_list.count "NPRO" + pos_list.count "ADJPRO" + pos_list.count "PRTFPRO"
  let total := words.length
  match perfective_verb_ratio parse words with
  | .error e => .error e
  | .ok vpr =>
    match count_diminutives parse words with
    | .error e => .error e
    | .ok dim =>
      match lemmaList parse words with
      | .error e => .error e
      | .ok lemmas =>
        let _ := noun_like
        let _ := verb_like
        let _ := adj_like
        let _ := adv_like
        .ok { nouns := pos_list.count "NOUN"
              verbs := pos_list.count "VERB"
              adjectives := pos_list.count "ADJF"
              pronouns := pronouns
              adverbs := pos_list.count "ADVB"
              prepositions := pos_list.count "PREP"
              conjunctions := pos_list.count "CONJ"
              particles := pos_list.count "PRCL"
              interjections := pos_list.count "INTJ"
              noun_ratio := if total = 0 then 0
                else pyRound 3 ((pos_list.count "NOUN" : ℚ) / (total : ℚ))
              verb_ratio := if total = 0 then 0
                else pyRound 3 ((pos_list.count "VERB" : ℚ) / (total : ℚ))
              adj_ratio := if total = 0 then 0
                else pyRound 3 ((pos_list.count "ADJF" : ℚ) / (total : ℚ))
              verb_perfective_ratio := vpr
              diminutive_noun_count := dim
              dialogue_markers := count_dialogue_markers l
              total_words := total
              unique_lemmas := lemmas.dedup.length }

/-- `compute`: extract words, look up each word's POS through the cache,
then assemble the result.  Returns the outcome (`.error` when a collaborator
exception propagates) together with the cache state after the call. -/
def compute (parse : Parse) (cache_size : ℕ) (cache : Cache) (text : String) :
    Except Unit Result × Cache :=
  let words := extract_words text
  if words = [] then (.ok empty_result, cache)
  else
    match mapPosList parse cache_size cache words with
    | (.error e, c) => (.error e, c)
    | (.ok pos_list, c) => (computeCore parse pos_list words text.toList, c)

/-- The new cache after one `_get_pos` call. -/
def cacheStep (parse : Parse) (cache_size : ℕ) (cache : Cache) (word : String) : Cache :=
  (get_pos parse cache_size cache word).2

/-- The cache after a sequence of `_get_pos` calls. -/
def cacheRun (parse : Parse) (cache_size : ℕ) (cache : Cache) (words : List String) : Cache :=
  words.foldl (cacheStep parse cache_size) cache

end MorphoMetrics

/-! ## Auxiliary definitions for the claims -/

instance {ε α : Type} [DecidableEq ε] [DecidableEq α] : DecidableEq (Except ε α)
  | .error e, .error f =>
    if h : e = f then .isTrue (by rw [h]) else .isFalse (by intro hc; cases hc; exact h rfl)
  | .error _, .ok _ => .isFalse (by intro hc; cases hc)
  | .ok _, .error _ => .isFalse (by intro hc; cases hc)
  | .ok a, .ok b =>
    if h : a = b then .isTrue (by rw [h]) else .isFalse (by intro hc; cases hc; exact h rfl)

namespace MorphoMetrics

/-- The cache-free POS outcome of a word: what `_get_pos` computes when the
word is not cached (`"UNKNOWN"` for the empty word, otherwise the top
parse's tag, with the collaborator's exception propagating). -/
def posOf (parse : Parse) (w : String) : Except Unit String :=
  if w = "" then .ok "UNKNOWN"
  else
    match parse w with
    | .error e => .error e
    | .ok parsed => .ok (tagOf parsed)

/-- A cache state is consistent with the collaborator when every stored
entry is exactly what an uncached lookup would produce.  Every cache state
reachable from the empty cache of a fresh instance is consistent. -/
abbrev Consistent (parse : Parse) (cache : Cache) : Prop :=
  ∀ p ∈ cache, posOf parse p.1 = .ok p.2

/-- Whether an outcome is a normal return rather than a propagated
exception. -/
def isOkE {ε α : Type} : Except ε α → Bool
  | .ok _ => true
  | .error _ => false

/-- A deterministic collaborator stub that tags every word `NPRO`
(pronoun-noun), used as a concrete instance. -/
def npro_oracle : Parse :=
  fun w => .ok [{ pos := some "NPRO", normal_form := w, aspect := none }]

/-- A deterministic collaborator stub that tags every word `NOUN`. -/
def noun_oracle : Parse :=
  fun w => .ok [{ pos := some "NOUN", normal_form := w, aspect := none }]

/-- A collaborator stub whose `parse` always raises. -/
def raising_oracle : Parse := fun _ => .error ()

/-- A collaborator stub that always returns no candidates. -/
def empty_oracle : Parse := fun _ => .ok []

/-- The result `compute` produces on the single-word text `"он"` under
`npro_oracle`: the word is tagged `NPRO`, so the reported `pronouns`
aggregate is 1 while the reported `nouns` count (a raw `NOUN` tag count)
is 0. -/
def npro_on_result : Result :=
  { nouns := 0, verbs := 0, adjectives := 0, pronouns := 1, adverbs := 0,
    prepositions := 0, conjunctions := 0, particles := 0, interjections := 0,
    noun_ratio := 0, verb_ratio := 0, adj_ratio := 0, verb_perfective_ratio := 0,
    diminutive_noun_count := 0, dialogue_markers := 0, total_words := 1,
    unique_lemmas := 1 }

end MorphoMetrics
/-! # Theorems -/

/-! ## Rounding bounds -/

theorem floor_le_pyRoundInt (q : ℚ) : ⌊q⌋ ≤ pyRoundInt q := by
  unfold pyRoundInt
  dsimp only
  split
  · exact le_refl _
  · split
    · omega
    · split <;> omega

theorem le_pyRoundInt (a : ℤ) (q : ℚ) (h : (a : ℚ) ≤ q) : a ≤ pyRoundInt q :=
  le_trans (Int.le_floor.mpr h) (floor_le_pyRoundInt q)

theorem pyRoundInt_le (b : ℤ) (q : ℚ) (h : q ≤ (b : ℚ)) : pyRoundInt q ≤ b := by
  unfold pyRoundInt
  dsimp only
  by_cases h1 : q - (⌊q⌋ : ℚ) < 1/2
  · rw [if_pos h1]
    have : ⌊q⌋ ≤ ⌊(b : ℚ)⌋ := Int.floor_le_floor h
    simpa using this
  · have h2 : (⌊q⌋ : ℚ) < q := by
      have h3 : (1 : ℚ)/2 ≤ q - (⌊q⌋ : ℚ) := not_lt.mp h1
      linarith
    have h4 : ⌊q⌋ < b := by exact_mod_cast lt_of_lt_of_le h2 h
    rw [if_neg h1]
    split
    · omega
    · split <;> omega

theorem le_pyRound (d : ℕ) (a : ℤ) (q : ℚ) (h : (a : ℚ) ≤ q) : (a : ℚ) ≤ pyRound d q := by
  unfold pyRound
  rw [le_div_iff₀ (by positivity : (0 : ℚ) < (10 : ℚ) ^ d)]
  have h1 : ((a * 10 ^ d : ℤ) : ℚ) ≤ q * (10 : ℚ) ^ d := by
    push_cast
    exact mul_le_mul_of_nonneg_right h (by positivity)
  have h2 := le_pyRoundInt (a * 10 ^ d) _ h1
  calc (a : ℚ) * (10 : ℚ) ^ d = ((a * 10 ^ d : ℤ) : ℚ) := by push_cast; ring
    _ ≤ (pyRoundInt (q * (10 : ℚ) ^ d) : ℚ) := by exact_mod_cast h2

theorem pyRound_le (d : ℕ) (b : ℤ) (q : ℚ) (h : q ≤ (b : ℚ)) : pyRound d q ≤ (b : ℚ) := by
  unfold pyRound
  rw [div_le_iff₀ (by positivity : (0 : ℚ) < (10 : ℚ) ^ d)]
  have h1 : q * (10 : ℚ) ^ d ≤ ((b * 10 ^ d : ℤ) : ℚ) := by
    push_cast
    exact mul_le_mul_of_nonneg_right h (by positivity)
  have h2 := pyRoundInt_le (b * 10 ^ d) _ h1
  calc (pyRoundInt (q * (10 : ℚ) ^ d) : ℚ) ≤ ((b * 10 ^ d : ℤ) : ℚ) := by exact_mod_cast h2
    _ = (b : ℚ) * (10 : ℚ) ^ d := by push_cast; ring

/-! ## Distribution-sum lemmas -/

theorem bump_sum (d : List (ℕ × ℕ)) (k : ℕ) :
    ((bump d k).map (fun p => p.2)).sum = ((d.map (fun p => p.2)).sum) + 1 := by
  induction d with
  | nil => simp [bump]
  | cons p ps ih =>
    by_cases h : p.1 = k
    · simp [bump, h]
      omega
    · simp [bump, h, ih]
      omega

theorem foldl_bump_sum (l : List ℕ) (init : List (ℕ × ℕ)) :
    (((l.foldl bump init).map (fun p => p.2)).sum) = ((init.map (fun p => p.2)).sum) + l.length := by
  induction l generalizing init with
  | nil => simp
  | cons k ks ih =>
    simp only [List.foldl_cons, List.length_cons]
    rw [ih (bump init k), bump_sum]
    omega

/-- C10: the class `TextComplexityMetrics` of textComplexityMetrics.py and
the duplicate class of the same name defined in ReadabilityIndexCalculator.py
compute extensionally equal results on every input text: identical key sets
and identical values (the two source definitions are byte-identical). -/
theorem C10_duplicate_class_equiv (text : String) : TCM.compute text = TCMDup.compute text := rfl

/-- C4: for every input text the values of the full syllable-count
distribution mapping sum exactly to the reported total word-form count, and
the `≥ 4`-syllable bucket is the aggregate of the individual (uncollapsed)
distribution entries with key `≥ 4`. -/
theorem C4_distribution_sum (text : String) :
    (((DTM.compute text).word_syllable_distribution).map (fun p => p.2)).sum
      = (DTM.compute text).word_forms_total
    ∧ (DTM.compute text).polysyllabic_words
      = ((((DTM.compute text).word_syllable_distribution).filter
            (fun p => decide (4 ≤ p.1))).map (fun p => p.2)).sum := by
  by_cases h : stripChars text.data = []
  · simp [DTM.compute, h]
  · simp [DTM.compute, h, foldl_bump_sum]

/-- C5: for every non-blank input, the reported confidence hint is the
sequential two-check computation: start at 1.0, set 0.5 when there are
fewer than 2 sentences, then - unconditionally evaluated second - set 0.3
when there are fewer than 5 words; in particular 0.3 wins whenever the word
count is below 5, whatever the sentence count. -/
theorem C5_confidence_sequential (text : String) (h : stripChars text.data ≠ []) :
    getVal (TCM.compute text) "confidence_hint"
      = some (confSeq (split_sentences text.data).length (TCM.wordsOf text.data).length)
    ∧ (∀ nS nW : ℕ, nW < 5 → confSeq nS nW = 3/10) := by
  refine ⟨?_, ?_⟩
  · simp [TCM.compute, getVal, h]
    unfold confSeq
    by_cases h5 : (TCM.wordsOf text.data).length < 5
    · simp only [if_pos h5]
      norm_num [pyRound, pyRoundInt]
    · simp only [if_neg h5]
      by_cases h2 : (split_sentences text.data).length < 2
      · simp only [if_pos h2]
        norm_num [pyRound, pyRoundInt]
      · simp only [if_neg h2]
        norm_num [pyRound, pyRoundInt]
  · intro nS nW hw
    simp [confSeq, hw]

/-- C6 counterexample: on the text `"Кот спит. Собака бежит быстро!"` the
word count is exactly 5, so the `fewer than 5 words` check does not fire and
the reported confidence hint is 1.0, not 0.3 as the claim states. -/
theorem C6_counterexample :
    getVal (TCM.compute "Кот спит. Собака бежит быстро!") "confidence_hint" = some 1
    ∧ (1 : ℚ) ≠ 3/10 := by
  refine ⟨?_, by norm_num⟩
  have h : getVal (TCM.compute "Кот спит. Собака бежит быстро!") "confidence_hint"
      = some (pyRound 2 1) := rfl
  rw [h]
  norm_num [pyRound, pyRoundInt]

/-- C6 (amended): on the text `"Кот спит. Собака бежит быстро!"` the
analyzer reports 2 sentences and 5 words (Кот, спит, Собака, бежит,
быстро), and since the word count is not below 5 and the sentence count is
not below 2, the confidence hint is 1.0. -/
theorem C6_concrete_scenario :
    getVal (TCM.compute "Кот спит. Собака бежит быстро!") "sentence_count" = some ((2 : ℕ) : ℚ)
    ∧ getVal (TCM.compute "Кот спит. Собака бежит быстро!") "word_count" = some ((5 : ℕ) : ℚ)
    ∧ TCM.wordsOf ("Кот спит. Собака бежит быстро!".toList)
        = ["Кот".toList, "спит".toList, "Собака".toList, "бежит".toList, "быстро".toList]
    ∧ getVal (TCM.compute "Кот спит. Собака бежит быстро!") "confidence_hint" = some (pyRound 2 1)
    ∧ pyRound 2 1 = 1 := by
  refine ⟨rfl, rfl, by decide, rfl, by norm_num [pyRound, pyRoundInt]⟩

/-- C2: for every input that is non-blank and yields at least one sentence
and at least one word, the reported readability indices satisfy the
documented clamps: `flesch_reading_ease ∈ [0, 100]`, `simple_level ∈ [1, 5]`
and `school_grade ∈ [1, 12]`, for an arbitrary square-root routine. -/
theorem C2_readability_clamps (sq : ℚ → ℚ) (text : String)
    (h0 : stripChars text.toList ≠ [])
    (hw : RIC.extract_words text.toList ≠ [])
    (hs : split_sentences text.toList ≠ []) :
    (0 ≤ (RIC.compute sq text).flesch_reading_ease
      ∧ (RIC.compute sq text).flesch_reading_ease ≤ 100)
    ∧ (1 ≤ (RIC.compute sq text).simple_level ∧ (RIC.compute sq text).simple_level ≤ 5)
    ∧ (1 ≤ (RIC.compute sq text).school_grade ∧ (RIC.compute sq text).school_grade ≤ 12) := by
  have hne : ¬((RIC.extract_words text.toList).length = 0
      ∨ (split_sentences text.toList).length = 0) := by
    simp only [List.length_eq_zero, not_or]
    exact ⟨hw, hs⟩
  simp only [RIC.compute]
  rw [if_neg h0, if_neg hne]
  dsimp only
  refine ⟨⟨?_, ?_⟩, ⟨?_, ?_⟩, ⟨?_, ?_⟩⟩
  · simpa using le_pyRound 1 0 _ (le_max_left 0 _)
  · simpa using pyRound_le 1 100 _ (max_le (by norm_num) (min_le_left _ _))
  · simpa using le_pyRound 1 1 _ (le_min (by norm_num) (le_max_left 1 _))
  · simpa using pyRound_le 1 5 _ (min_le_left _ _)
  · simpa using le_pyRound 1 1 _ (le_max_left 1 _)
  · simpa using pyRound_le 1 12 _ (max_le (by norm_num) (min_le_left _ _))

/-- C3: for every valid input the SMOG index is computed by the
discontinuous two-branch rule: the reported `smog_grade` is the (twice
1-decimal-rounded) value of `smogRu`, which equals
`1.043*sqrt(30*poly3/n_sentences) + 3.1291` when `n_sentences ≥ 10` and the
linear fallback `1.0 + 0.1*poly3` otherwise. -/
theorem C3_smog_branches (sq : ℚ → ℚ) (text : String)
    (h0 : stripChars text.toList ≠ [])
    (hw : RIC.extract_words text.toList ≠ [])
    (hs : split_sentences text.toList ≠ []) :
    (RIC.compute sq text).smog_grade
      = pyRound 1 (pyRound 1 (RIC.smogRu sq (split_sentences text.toList).length
          (RIC.polyOf text.toList)))
    ∧ (10 ≤ (split_sentences text.toList).length →
        RIC.smogRu sq (split_sentences text.toList).length (RIC.polyOf text.toList)
          = 1.043 * sq (30 * (RIC.polyOf text.toList : ℚ)
              / ((split_sentences text.toList).length : ℚ)) + 3.1291)
    ∧ ((split_sentences text.toList).length < 10 →
        RIC.smogRu sq (split_sentences text.toList).length (RIC.polyOf text.toList)
          = 1 + 0.1 * (RIC.polyOf text.toList : ℚ)) := by
  have hne : ¬((RIC.extract_words text.toList).length = 0
      ∨ (split_sentences text.toList).length = 0) := by
    simp only [List.length_eq_zero, not_or]
    exact ⟨hw, hs⟩
  refine ⟨?_, ?_, ?_⟩
  · simp only [RIC.compute, RIC.polyOf]
    rw [if_neg h0, if_neg hne]
  · intro h10
    simp only [RIC.smogRu, if_pos h10]
  · intro h10
    simp only [RIC.smogRu, if_neg (not_le.mpr h10)]

/-- Witness for C5 at the concrete text `"кот."`. -/
theorem C5_confidence_sequential_witness :
    stripChars ("кот." : String).data ≠ []
    ∧ getVal (TCM.compute "кот.") "confidence_hint"
        = some (confSeq (split_sentences ("кот." : String).data).length
            (TCM.wordsOf ("кот." : String).data).length) :=
  ⟨by decide, (C5_confidence_sequential "кот." (by decide)).1⟩

/-- Witness for C2 at the concrete text `"кот."` with the identity in place
of the square-root routine. -/
theorem C2_readability_clamps_witness :
    stripChars ("кот." : String).toList ≠ []
    ∧ RIC.extract_words ("кот." : String).toList ≠ []
    ∧ split_sentences ("кот." : String).toList ≠ []
    ∧ ((0 ≤ (RIC.compute (fun q => q) "кот.").flesch_reading_ease
        ∧ (RIC.compute (fun q => q) "кот.").flesch_reading_ease ≤ 100)
      ∧ (1 ≤ (RIC.compute (fun q => q) "кот.").simple_level
        ∧ (RIC.compute (fun q => q) "кот.").simple_level ≤ 5)
      ∧ (1 ≤ (RIC.compute (fun q => q) "кот.").school_grade
        ∧ (RIC.compute (fun q => q) "кот.").school_grade ≤ 12)) :=
  ⟨by decide, by decide, by decide,
    C2_readability_clamps (fun q => q) "кот." (by decide) (by decide) (by decide)⟩

/-- Witness for C3 at a concrete 12-sentence text: the sentence count is 12,
so the square-root branch (not the linear fallback) gives the SMOG value. -/
theorem C3_smog_branches_witness :
    (split_sentences ("а. а. а. а. а. а. а. а. а. а. а. а." : String).toList).length = 12
    ∧ RIC.smogRu (fun q => q)
        (split_sentences ("а. а. а. а. а. а. а. а. а. а. а. а." : String).toList).length
        (RIC.polyOf ("а. а. а. а. а. а. а. а. а. а. а. а." : String).toList)
      = 1.043 * (30 * ((RIC.polyOf ("а. а. а. а. а. а. а. а. а. а. а. а." : String).toList : ℕ) : ℚ)
          / (((split_sentences ("а. а. а. а. а. а. а. а. а. а. а. а." : String).toList).length : ℕ) : ℚ))
        + 3.1291 :=
  ⟨by decide,
    (C3_smog_branches (fun q => q) "а. а. а. а. а. а. а. а. а. а. а. а."
      (by decide) (by decide) (by decide)).2.1 (by decide)⟩

/-! ## Cache lemmas -/

namespace MorphoMetrics

theorem cacheRun_nil (parse : Parse) (size : ℕ) (c : Cache) : cacheRun parse size c [] = c := rfl

theorem cacheRun_cons (parse : Parse) (size : ℕ) (c : Cache) (w : String) (ws : List String) :
    cacheRun parse size c (w :: ws) = cacheRun parse size (cacheStep parse size c w) ws := rfl

theorem cacheRun_append (parse : Parse) (size : ℕ) (c : Cache) (ws ws' : List String) :
    cacheRun parse size c (ws ++ ws') = cacheRun parse size (cacheRun parse size c ws) ws' := by
  unfold cacheRun
  exact List.foldl_append _ _ _ _

theorem clookup_append_left (c d : Cache) (w t : String) (h : clookup c w = some t) :
    clookup (c ++ d) w = some t := by
  induction c with
  | nil => simp [clookup] at h
  | cons p ps ih =>
    simp only [List.cons_append, clookup] at h ⊢
    by_cases hp : p.1 = w
    · rw [if_pos hp] at h ⊢
      exact h
    · rw [if_neg hp] at h ⊢
      exact ih h

theorem cacheStep_shape (parse : Parse) (size : ℕ) (c : Cache) (w : String) :
    cacheStep parse size c w = c
    ∨ ∃ p, cacheStep parse size c w = c ++ [(w, p)] ∧ c.length < size := by
  unfold cacheStep get_pos
  by_cases hw : w = ""
  · left
    simp [hw]
  · rw [if_neg hw]
    cases hl : clookup c w with
    | some p => left; rfl
    | none =>
      cases hp : parse w with
      | error e => left; rfl
      | ok l =>
        by_cases hlen : c.length < size
        · right
          exact ⟨tagOf l, by simp [hlen], hlen⟩
        · left
          simp [hlen]

theorem cacheStep_length (parse : Parse) (size : ℕ) (c : Cache) (w : String)
    (h : c.length ≤ size) : (cacheStep parse size c w).length ≤ size := by
  rcases cacheStep_shape parse size c w with h1 | ⟨p, h1, h2⟩
  · rw [h1]; exact h
  · rw [h1]; simp; omega

theorem cacheStep_full (parse : Parse) (size : ℕ) (c : Cache) (w : String)
    (h : c.length = size) : cacheStep parse size c w = c := by
  rcases cacheStep_shape parse size c w with h1 | ⟨p, h1, h2⟩
  · exact h1
  · omega

theorem cacheStep_lookup (parse : Parse) (size : ℕ) (c : Cache) (w' w t : String)
    (h : clookup c w = some t) : clookup (cacheStep parse size c w') w = some t := by
  rcases cacheStep_shape parse size c w' with h1 | ⟨p, h1, h2⟩
  · rw [h1]; exact h
  · rw [h1]; exact clookup_append_left _ _ _ _ h

theorem cacheRun_length (parse : Parse) (size : ℕ) (ws : List String) :
    ∀ c : Cache, c.length ≤ size → (cacheRun parse size c ws).length ≤ size := by
  induction ws with
  | nil => intro c h; exact h
  | cons w ws ih =>
    intro c h
    rw [cacheRun_cons]
    exact ih _ (cacheStep_length parse size c w h)

theorem cacheRun_full (parse : Parse) (size : ℕ) (ws : List String) :
    ∀ c : Cache, c.length = size → cacheRun parse size c ws = c := by
  induction ws with
  | nil => intro c _; rfl
  | cons w ws ih =>
    intro c h
    rw [cacheRun_cons, cacheStep_full parse size c w h]
    exact ih c h

theorem cacheRun_lookup (parse : Parse) (size : ℕ) (ws : List String) (w t : String) :
    ∀ c : Cache, clookup c w = some t → clookup (cacheRun parse size c ws) w = some t := by
  induction ws with
  | nil => intro c h; exact h
  | cons w' ws ih =>
    intro c h
    rw [cacheRun_cons]
    exact ih _ (cacheStep_lookup parse size c w' w t h)

end MorphoMetrics

/-- C7: over any sequence of POS lookups on a fresh classifier instance with
configured capacity, the cache never holds more than `size` entries; once it
holds exactly `size` entries no later lookup changes it; and an admitted
entry is never removed or overwritten (its lookup result survives any
further lookups). -/
theorem C7_cache_invariants (parse : MorphoMetrics.Parse) (size : ℕ)
    (ws ws' : List String) (w t : String) :
    (MorphoMetrics.cacheRun parse size [] ws).length ≤ size
    ∧ ((MorphoMetrics.cacheRun parse size [] ws).length = size →
        MorphoMetrics.cacheRun parse size [] (ws ++ ws')
          = MorphoMetrics.cacheRun parse size [] ws)
    ∧ (MorphoMetrics.clookup (MorphoMetrics.cacheRun parse size [] ws) w = some t →
        MorphoMetrics.clookup (MorphoMetrics.cacheRun parse size [] (ws ++ ws')) w = some t) := by
  refine ⟨MorphoMetrics.cacheRun_length parse size ws [] (by simp), ?_, ?_⟩
  · intro h
    rw [MorphoMetrics.cacheRun_append]
    exact MorphoMetrics.cacheRun_full parse size ws' _ h
  · intro h
    rw [MorphoMetrics.cacheRun_append]
    exact MorphoMetrics.cacheRun_lookup parse size ws' w t _ h

/-- Witness for C7: with capacity 1, after looking up `"он"` the cache is
full, the later lookup of `"да"` is not admitted, and the admitted entry
survives. -/
theorem C7_cache_invariants_witness :
    (MorphoMetrics.cacheRun MorphoMetrics.npro_oracle 1 [] ["он"]).length ≤ 1
    ∧ MorphoMetrics.cacheRun MorphoMetrics.npro_oracle 1 [] (["он"] ++ ["да"])
        = MorphoMetrics.cacheRun MorphoMetrics.npro_oracle 1 [] ["он"]
    ∧ MorphoMetrics.clookup
        (MorphoMetrics.cacheRun MorphoMetrics.npro_oracle 1 [] (["он"] ++ ["да"])) "он"
        = some "NPRO" := by
  have h := C7_cache_invariants MorphoMetrics.npro_oracle 1 ["он"] ["да"] "он" "NPRO"
  exact ⟨h.1, h.2.1 (by decide), h.2.2 (by decide)⟩

/-- C1 counterexample: under a collaborator that tags the single word of
the text `"он"` as `NPRO`, the reported noun count is 0 while the count of
words tagged `NOUN` plus those tagged `NPRO` is 1 — the reported `nouns`
value is the raw `NOUN` tag count, not the `NOUN + NPRO` aggregate the
claim states. -/
theorem C1_counterexample :
    ((MorphoMetrics.compute MorphoMetrics.npro_oracle 100000 [] "он").1).map
        (fun r => (r.nouns, r.pronouns, r.total_words))
      = .ok ((0 : ℕ), (1 : ℕ), (1 : ℕ))
    ∧ (MorphoMetrics.mapPosList MorphoMetrics.npro_oracle 100000 []
        (MorphoMetrics.extract_words "он")).1 = .ok ["NPRO"]
    ∧ (["NPRO"] : List String).count "NOUN" + (["NPRO"] : List String).count "NPRO" = 1
    ∧ (0 : ℕ) ≠ 1 :=
  ⟨by decide, by decide, by decide, by decide⟩

/-- C1 (amended): whenever the POS lookup of the extracted words succeeds
with tag list `ps`, the reported `nouns`, `verbs` and `adjectives` are the
raw `NOUN`, `VERB` and `ADJF` tag counts of `ps` (the `noun_like`,
`verb_like`, `adj_like` aggregates are computed but not reported), while
the reported `pronouns` value is the aggregate
`NPRO + ADJPRO + PRTFPRO`. -/
theorem C1_pos_category_counts (parse : MorphoMetrics.Parse) (size : ℕ)
    (cache : MorphoMetrics.Cache) (text : String) (ps : List String)
    (c : MorphoMetrics.Cache)
    (hw : MorphoMetrics.extract_words text ≠ [])
    (hm : MorphoMetrics.mapPosList parse size cache (MorphoMetrics.extract_words text)
            = (.ok ps, c)) :
    ((MorphoMetrics.compute parse size cache text).1).map
        (fun r => (r.nouns, r.verbs, r.adjectives, r.pronouns))
      = ((MorphoMetrics.compute parse size cache text).1).map
        (fun _ => (ps.count "NOUN", ps.count "VERB", ps.count "ADJF",
                   ps.count "NPRO" + ps.count "ADJPRO" + ps.count "PRTFPRO")) := by
  simp only [MorphoMetrics.compute]
  rw [if_neg hw, hm]
  simp only [MorphoMetrics.computeCore]
  split
  · rfl
  · split
    · rfl
    · split
      · rfl
      · rfl

/-- Witness for C1 (amended) at the single-word text `"он"` under the
`NPRO`-tagging collaborator. -/
theorem C1_pos_category_counts_witness :
    MorphoMetrics.extract_words "он" ≠ []
    ∧ ((MorphoMetrics.compute MorphoMetrics.npro_oracle 100000 [] "он").1).map
        (fun r => (r.nouns, r.verbs, r.adjectives, r.pronouns))
      = ((MorphoMetrics.compute MorphoMetrics.npro_oracle 100000 [] "он").1).map
        (fun _ => ((["NPRO"] : List String).count "NOUN", (["NPRO"] : List String).count "VERB",
                   (["NPRO"] : List String).count "ADJF",
                   (["NPRO"] : List String).count "NPRO" + (["NPRO"] : List String).count "ADJPRO"
                     + (["NPRO"] : List String).count "PRTFPRO")) :=
  ⟨by decide,
    C1_pos_category_counts MorphoMetrics.npro_oracle 100000 [] "он" ["NPRO"]
      [("он", "NPRO")] (by decide) (by decide)⟩

/-! ## Cache-consistency lemmas -/

namespace MorphoMetrics

theorem consistent_nil (parse : Parse) : Consistent parse [] := by
  intro p hp
  cases hp

theorem mem_of_clookup {c : Cache} {w t : String} (h : clookup c w = some t) : (w, t) ∈ c := by
  induction c with
  | nil => simp [clookup] at h
  | cons p ps ih =>
    simp only [clookup] at h
    by_cases hp : p.1 = w
    · rw [if_pos hp] at h
      obtain ⟨a, b⟩ := p
      cases hp
      cases Option.some.inj h
      exact List.mem_cons_self _ _
    · rw [if_neg hp] at h
      exact List.mem_cons_of_mem _ (ih h)

theorem get_pos_fst (parse : Parse) (size : ℕ) (cache : Cache) (w : String)
    (hc : Consistent parse cache) : (get_pos parse size cache w).1 = posOf parse w := by
  by_cases hw : w = ""
  · simp [get_pos, posOf, hw]
  · cases hl : clookup cache w with
    | some p =>
      have h := hc (w, p) (mem_of_clookup hl)
      simp only [get_pos, if_neg hw, hl]
      exact h.symm
    | none =>
      cases hp : parse w with
      | error e => simp [get_pos, posOf, if_neg hw, hl, hp]
      | ok l =>
        simp only [get_pos, posOf, if_neg hw, hl, hp]
        split <;> rfl

theorem get_pos_snd_consistent (parse : Parse) (size : ℕ) (cache : Cache) (w : String)
    (hc : Consistent parse cache) : Consistent parse (get_pos parse size cache w).2 := by
  by_cases hw : w = ""
  · simpa [get_pos, hw] using hc
  · cases hl : clookup cache w with
    | some p => simpa [get_pos, if_neg hw, hl] using hc
    | none =>
      cases hp : parse w with
      | error e => simpa [get_pos, if_neg hw, hl, hp] using hc
      | ok l =>
        simp only [get_pos, if_neg hw, hl, hp]
        split
        · intro q hq
          rcases List.mem_append.mp hq with hq | hq
          · exact hc q hq
          · simp only [List.mem_singleton] at hq
            subst hq
            simp [posOf, if_neg hw, hp]
        · exact hc

theorem mapPosList_fst_eq (parse : Parse) (size : ℕ) (ws : List String) :
    ∀ c1 c2 : Cache, Consistent parse c1 → Consistent parse c2 →
      (mapPosList parse size c1 ws).1 = (mapPosList parse size c2 ws).1 := by
  induction ws with
  | nil => intro c1 c2 _ _; rfl
  | cons w ws ih =>
    intro c1 c2 h1 h2
    have e1 := get_pos_fst parse size c1 w h1
    have e2 := get_pos_fst parse size c2 w h2
    have hd1 := get_pos_snd_consistent parse size c1 w h1
    have hd2 := get_pos_snd_consistent parse size c2 w h2
    simp only [mapPosList]
    rcases hg1 : get_pos parse size c1 w with ⟨r1, d1⟩
    rcases hg2 : get_pos parse size c2 w with ⟨r2, d2⟩
    rw [hg1] at e1 hd1
    rw [hg2] at e2 hd2
    dsimp only at e1 e2 hd1 hd2
    subst e1
    subst e2
    cases hpos : posOf parse w with
    | error e => rfl
    | ok p =>
      dsimp only
      have hrec := ih d1 d2 hd1 hd2
      rcases hm1 : mapPosList parse size d1 ws with ⟨s1, f1⟩
      rcases hm2 : mapPosList parse size d2 ws with ⟨s2, f2⟩
      rw [hm1, hm2] at hrec
      dsimp only at hrec
      subst hrec
      cases s1 with
      | error e => rfl
      | ok ps => rfl

theorem mapPosList_snd_consistent (parse : Parse) (size : ℕ) (ws : List String) :
    ∀ c : Cache, Consistent parse c → Consistent parse (mapPosList parse size c ws).2 := by
  induction ws with
  | nil => intro c hc; exact hc
  | cons w ws ih =>
    intro c hc
    have hd := get_pos_snd_consistent parse size c w hc
    simp only [mapPosList]
    rcases hg : get_pos parse size c w with ⟨r, d⟩
    rw [hg] at hd
    dsimp only at hd
    cases r with
    | error e => exact hd
    | ok p =>
      dsimp only
      have hrec := ih d hd
      rcases hm : mapPosList parse size d ws with ⟨s, f⟩
      rw [hm] at hrec
      dsimp only at hrec
      cases s with
      | error e => exact hrec
      | ok ps => exact hrec

theorem compute_fst_eq (parse : Parse) (size : ℕ) (c1 c2 : Cache) (text : String)
    (h1 : Consistent parse c1) (h2 : Consistent parse c2) :
    (compute parse size c1 text).1 = (compute parse size c2 text).1 := by
  simp only [compute]
  by_cases hw : extract_words text = []
  · rw [if_pos hw, if_pos hw]
  · rw [if_neg hw, if_neg hw]
    have heq := mapPosList_fst_eq parse size (extract_words text) c1 c2 h1 h2
    rcases hm1 : mapPosList parse size c1 (extract_words text) with ⟨s1, d1⟩
    rcases hm2 : mapPosList parse size c2 (extract_words text) with ⟨s2, d2⟩
    rw [hm1, hm2] at heq
    dsimp only at heq
    subst heq
    cases s1 with
    | error e => rfl
    | ok ps => rfl

theorem compute_snd_consistent (parse : Parse) (size : ℕ) (c : Cache) (text : String)
    (hc : Consistent parse c) : Consistent parse (compute parse size c text).2 := by
  simp only [compute]
  by_cases hw : extract_words text = []
  · rw [if_pos hw]
    exact hc
  · rw [if_neg hw]
    have hrec := mapPosList_snd_consistent parse size (extract_words text) c hc
    rcases hm : mapPosList parse size c (extract_words text) with ⟨s, d⟩
    rw [hm] at hrec
    dsimp only at hrec
    cases s with
    | error e => exact hrec
    | ok ps => exact hrec

end MorphoMetrics

/-- C8: with a deterministic collaborator, the externally observable result
of `compute` does not depend on the cache state, provided the cache is
consistent with the collaborator (as every cache state accumulated by
earlier calls is): the result from any consistent cache equals the result
from the empty cache of a fresh instance, consistency is preserved by the
call, and in particular a second `compute` on the same text (with the cache
the first call left behind) returns the identical result. -/
theorem C8_cache_transparency (parse : MorphoMetrics.Parse) (size : ℕ)
    (cache : MorphoMetrics.Cache) (text : String)
    (hc : MorphoMetrics.Consistent parse cache) :
    (MorphoMetrics.compute parse size cache text).1
      = (MorphoMetrics.compute parse size [] text).1
    ∧ MorphoMetrics.Consistent parse (MorphoMetrics.compute parse size cache text).2
    ∧ (MorphoMetrics.compute parse size ((MorphoMetrics.compute parse size [] text).2) text).1
        = (MorphoMetrics.compute parse size [] text).1 :=
  ⟨MorphoMetrics.compute_fst_eq parse size cache [] text hc (MorphoMetrics.consistent_nil parse),
   MorphoMetrics.compute_snd_consistent parse size cache text hc,
   MorphoMetrics.compute_fst_eq parse size _ [] text
     (MorphoMetrics.compute_snd_consistent parse size [] text (MorphoMetrics.consistent_nil parse))
     (MorphoMetrics.consistent_nil parse)⟩

/-- Witness for C8: a pre-populated consistent cache entry does not change
the result on a concrete text under the `NOUN`-tagging collaborator. -/
theorem C8_cache_transparency_witness :
    MorphoMetrics.Consistent MorphoMetrics.noun_oracle [("кот", "NOUN")]
    ∧ (MorphoMetrics.compute MorphoMetrics.noun_oracle 5 [("кот", "NOUN")] "кот спит").1
        = (MorphoMetrics.compute MorphoMetrics.noun_oracle 5 [] "кот спит").1 :=
  ⟨by decide,
    (C8_cache_transparency MorphoMetrics.noun_oracle 5 [("кот", "NOUN")] "кот спит"
      (by decide)).1⟩

/-! ## Graceful-degradation lemmas -/

namespace MorphoMetrics

theorem get_pos_fst_isOk (parse : Parse) (size : ℕ) (cache : Cache) (w : String)
    (hok : ∀ u, isOkE (parse u) = true) : isOkE (get_pos parse size cache w).1 = true := by
  by_cases hw : w = ""
  · simp [get_pos, hw, isOkE]
  · cases hl : clookup cache w with
    | some p => simp [get_pos, if_neg hw, hl, isOkE]
    | none =>
      cases hp : parse w with
      | error e =>
        have h := hok w
        rw [hp] at h
        simp [isOkE] at h
      | ok l =>
        simp only [get_pos, if_neg hw, hl, hp]
        split <;> rfl

theorem mapPosList_fst_isOk (parse : Parse) (size : ℕ) (ws : List String)
    (hok : ∀ u, isOkE (parse u) = true) :
    ∀ c : Cache, isOkE (mapPosList parse size c ws).1 = true := by
  induction ws with
  | nil => intro c; rfl
  | cons w ws ih =>
    intro c
    have hg1 := get_pos_fst_isOk parse size c w hok
    simp only [mapPosList]
    rcases hg : get_pos parse size c w with ⟨r, d⟩
    rw [hg] at hg1
    dsimp only at hg1
    cases r with
    | error e => simp [isOkE] at hg1
    | ok p =>
      dsimp only
      have hrec := ih d
      rcases hm : mapPosList parse size d ws with ⟨s, f⟩
      rw [hm] at hrec
      dsimp only at hrec
      cases s with
      | error e => simp [isOkE] at hrec
      | ok ps => rfl

theorem perfCounts_isOk (parse : Parse) (ws : List String)
    (hok : ∀ u, isOkE (parse u) = true)
    (hasp : ∀ u c l, parse u = .ok (c :: l) →
      c.pos = some "VERB" ∨ c.pos = some "INFN" → c.aspect.isSome = true) :
    isOkE (perfCounts parse ws) = true := by
  induction ws with
  | nil => rfl
  | cons w ws ih =>
    simp only [perfCounts]
    cases hp : parse w with
    | error e =>
      have h := hok w
      rw [hp] at h
      simp [isOkE] at h
    | ok parses =>
      cases parses with
      | nil => exact ih
      | cons c rest =>
        dsimp only
        by_cases hv : c.pos = some "VERB" ∨ c.pos = some "INFN"
        · rw [if_pos hv]
          have ha := hasp w c rest hp hv
          cases hasp2 : c.aspect with
          | none => rw [hasp2] at ha; simp at ha
          | some a =>
            simp only [hasp2, aspectHasPerf]
            rcases hr : perfCounts parse ws with he | ⟨p, v⟩
            · rw [hr] at ih
              simp [isOkE] at ih
            · rfl
        · rw [if_neg hv]
          exact ih

theorem count_diminutives_isOk (parse : Parse) (ws : List String)
    (hok : ∀ u, isOkE (parse u) = true) : isOkE (count_diminutives parse ws) = true := by
  induction ws with
  | nil => rfl
  | cons w ws ih =>
    simp only [count_diminutives]
    cases hp : parse w with
    | error e =>
      have h := hok w
      rw [hp] at h
      simp [isOkE] at h
    | ok parses =>
      dsimp only
      rcases hr : count_diminutives parse ws with he | n
      · rw [hr] at ih
        simp [isOkE] at ih
      · rfl

theorem lemmaList_isOk (parse : Parse) (ws : List String)
    (hok : ∀ u, isOkE (parse u) = true) : isOkE (lemmaList parse ws) = true := by
  induction ws with
  | nil => rfl
  | cons w ws ih =>
    simp only [lemmaList]
    cases hp : parse w with
    | error e =>
      have h := hok w
      rw [hp] at h
      simp [isOkE] at h
    | ok parses =>
      dsimp only
      rcases hr : lemmaList parse ws with he | ls
      · rw [hr] at ih
        simp [isOkE] at ih
      · cases parses with
        | nil => rfl
        | cons c rest => rfl

theorem computeCore_isOk (parse : Parse) (ps words : List String) (l : List Char)
    (hok : ∀ u, isOkE (parse u) = true)
    (hasp : ∀ u c cl, parse u = .ok (c :: cl) →
      c.pos = some "VERB" ∨ c.pos = some "INFN" → c.aspect.isSome = true) :
    isOkE (computeCore parse ps words l) = true := by
  simp only [computeCore, perfective_verb_ratio]
  have h1 := perfCounts_isOk parse words hok hasp
  rcases hp : perfCounts parse words with he | ⟨pc, vc⟩
  · rw [hp] at h1
    simp [isOkE] at h1
  · dsimp only
    have h2 := count_diminutives_isOk parse words hok
    rcases hd : count_diminutives parse words with he | n
    · rw [hd] at h2
      simp [isOkE] at h2
    · dsimp only
      have h3 := lemmaList_isOk parse words hok
      rcases hl : lemmaList parse words with he | ls
      · rw [hl] at h3
        simp [isOkE] at h3
      · rfl

end MorphoMetrics

/-- C9 counterexample: under a collaborator whose `parse` raises, `compute`
on the one-word text `"кот"` does not return a normal result mapping - the
exception propagates (there is no handler at the classifier boundary). -/
theorem C9_counterexample :
    MorphoMetrics.extract_words "кот" ≠ []
    ∧ MorphoMetrics.isOkE (MorphoMetrics.compute MorphoMetrics.raising_oracle 5 [] "кот").1
        = false :=
  ⟨by decide, by decide⟩

/-- C9 (amended): a parse that returns no candidates degrades gracefully -
the word is tagged `UNKNOWN` by `_get_pos` and is excluded from the lemma
collection - and `compute` returns a normal result mapping whenever no
collaborator call raises (and verb-tagged top candidates carry an aspect);
but an exception raised by the collaborator is not caught at the classifier
boundary and propagates out of `compute`. -/
theorem C9_graceful_degradation :
    (∀ (parse : MorphoMetrics.Parse) (size : ℕ) (cache : MorphoMetrics.Cache) (text : String),
      (∀ u, MorphoMetrics.isOkE (parse u) = true) →
      (∀ u c cl, parse u = .ok (c :: cl) →
        c.pos = some "VERB" ∨ c.pos = some "INFN" → c.aspect.isSome = true) →
      MorphoMetrics.isOkE (MorphoMetrics.compute parse size cache text).1 = true)
    ∧ (∀ (parse : MorphoMetrics.Parse) (size : ℕ) (cache : MorphoMetrics.Cache) (w : String),
        w ≠ "" → MorphoMetrics.clookup cache w = none → parse w = .ok [] →
        (MorphoMetrics.get_pos parse size cache w).1 = .ok "UNKNOWN")
    ∧ (∀ (parse : MorphoMetrics.Parse) (w : String) (ws : List String), parse w = .ok [] →
        MorphoMetrics.lemmaList parse (w :: ws) = MorphoMetrics.lemmaList parse ws) := by
  refine ⟨?_, ?_, ?_⟩
  · intro parse size cache text hok hasp
    simp only [MorphoMetrics.compute]
    by_cases hw : MorphoMetrics.extract_words text = []
    · rw [if_pos hw]
      rfl
    · rw [if_neg hw]
      have h1 := MorphoMetrics.mapPosList_fst_isOk parse size
        (MorphoMetrics.extract_words text) hok cache
      rcases hm : MorphoMetrics.mapPosList parse size cache
          (MorphoMetrics.extract_words text) with ⟨s, d⟩
      rw [hm] at h1
      dsimp only at h1
      cases s with
      | error e => simp [MorphoMetrics.isOkE] at h1
      | ok ps =>
        exact MorphoMetrics.computeCore_isOk parse ps
          (MorphoMetrics.extract_words text) text.toList hok hasp
  · intro parse size cache w hw hcl hp
    simp only [MorphoMetrics.get_pos, if_neg hw, hcl, hp]
    split <;> rfl
  · intro parse w ws hp
    simp only [MorphoMetrics.lemmaList, hp]
    rcases hr : MorphoMetrics.lemmaList parse ws with he | ls <;> rfl

/-- Witness for C9 (amended) under the no-candidates collaborator. -/
theorem C9_graceful_degradation_witness :
    MorphoMetrics.isOkE (MorphoMetrics.compute MorphoMetrics.empty_oracle 5 [] "кот").1 = true
    ∧ (MorphoMetrics.get_pos MorphoMetrics.empty_oracle 5 [] "кот").1 = .ok "UNKNOWN"
    ∧ MorphoMetrics.lemmaList MorphoMetrics.empty_oracle ["кот", "пес"]
        = MorphoMetrics.lemmaList MorphoMetrics.empty_oracle ["пес"] :=
  ⟨C9_graceful_degradation.1 MorphoMetrics.empty_oracle 5 [] "кот" (fun _ => rfl)
    (fun u c cl hp => absurd (Except.ok.inj hp) (by simp)),
   C9_graceful_degradation.2.1 MorphoMetrics.empty_oracle 5 [] "кот" (by decide) rfl rfl,
   C9_graceful_degradation.2.2 MorphoMetrics.empty_oracle "кот" ["пес"] rfl⟩
